import Mathlib

/-!
# Upload handler of `cloud-functions-go` (`src/main.go`)

A shallow embedding of the single request handler `upload` and of `makeTimestamp`.

* Go strings are Lean `String`s, Go `error` values are represented by their `Error()` text.
* The handler's collaborators (the request, the multipart file, the storage client, the
  process environment and the clock) are explicit inputs collected in `World`; every
  effect the handler performs is recorded, in program order, in a trace of `Event`s.
* Library routines used by the handler (`strings.Contains`, `fmt.Sprint` on an `int64`,
  `time.Time.UnixNano`, `time.Time.Format` with the layout `2006/01/02/`, `io.Copy`) are
  given executable models that follow their documented behaviour.
-/

set_option linter.dupNamespace false

namespace Upload

/-! ## Data model (`src/main.go`, lines 34-47) -/

/-- Success JSON (`type Success struct`). -/
structure Success where
  Success : Bool
  Error : Bool
  Message : String
  Url : String
  deriving DecidableEq

/-- Error JSON (`type Error struct`); it has no `url` field. -/
structure Error where
  Success : Bool
  Error : Bool
  Message : String
  deriving DecidableEq

/-- The value handed to `c.JSON`: a pointer to a `Success` or to an `Error`. -/
inductive Body where
  | success (s : Success)
  | error (e : Error)
  deriving DecidableEq

/-- The `success` member of the serialised body. -/
def Body.successFlag : Body → Bool
  | .success s => s.Success
  | .error e => e.Success

/-- The `error` member of the serialised body. -/
def Body.errorFlag : Body → Bool
  | .success s => s.Error
  | .error e => e.Error

/-- The `message` member of the serialised body. -/
def Body.message : Body → String
  | .success s => s.Message
  | .error e => e.Message

/-- The `url` member of the serialised body, when the body has one. -/
def Body.url : Body → Option String
  | .success s => some s.Url
  | .error _ => none

/-! ## Library models -/

/-- Model of `strings.Contains(s, substr)`: `substr` occurs in `s` at some position. -/
def stringsContains (s substr : String) : Bool :=
  s.data.tails.any (fun t => substr.data.isPrefixOf t)

/-- Model of `fmt.Sprint` applied to an `int64`: decimal digits, preceded by `-` when the
value is negative. -/
def fmtSprintInt (x : Int) : String :=
  if x < 0 then String.mk ('-' :: Nat.toDigits 10 x.natAbs)
  else String.mk (Nat.toDigits 10 x.natAbs)

/-- Model of the `time` package's `appendInt(b, x, width)`: decimal digits of `x`,
left-padded with zeros to `width`, after a `-` when `x` is negative. -/
def appendInt (x : Int) (width : Nat) : List Char :=
  let ds := Nat.toDigits 10 x.natAbs
  let padded := List.replicate (width - ds.length) '0' ++ ds
  if x < 0 then '-' :: padded else padded

/-- Reinterpretation of an integer as a two's-complement `int64`. -/
def wrapInt64 (x : Int) : Int :=
  (x + 2 ^ 63) % 2 ^ 64 - 2 ^ 63

/-- A clock reading (`time.Now()`): seconds and nanoseconds since the Unix epoch, and the
offset in seconds east of UTC of the local zone at that instant. -/
structure Time where
  sec : Int
  nsec : Nat
  offset : Int
  deriving DecidableEq

/-- Model of `time.Time.UnixNano`: `sec * 1e9 + nsec` computed in `int64`. -/
def Time.UnixNano (t : Time) : Int :=
  wrapInt64 (t.sec * 1000000000 + (t.nsec : Int))

/-- Proleptic Gregorian calendar date (year, month, day) of the day that lies `z` days
after 1970-01-01, as used by the `time` package for every date computation. -/
def civilFromDays (z : Int) : Int × Int × Int :=
  let z := z + 719468
  let era := z / 146097
  let doe := z % 146097
  let yoe := (doe - doe / 1460 + doe / 36524 - doe / 146096) / 365
  let doy := doe - (365 * yoe + yoe / 4 - yoe / 100)
  let mp := (5 * doy + 2) / 153
  let d := doy - (153 * mp + 2) / 5 + 1
  let m := if mp < 10 then mp + 3 else mp - 9
  let y := yoe + era * 400
  (if m ≤ 2 then y + 1 else y, m, d)

/-- Local calendar date shown by a clock reading. -/
def Time.Date (t : Time) : Int × Int × Int :=
  civilFromDays ((t.sec + t.offset) / 86400)

/-- Model of `t.Format("2006/01/02/")`: four-digit year, two-digit month, two-digit day
of the local date, each followed by `/`. -/
def Time.Format (t : Time) : String :=
  let (y, m, d) := t.Date
  String.mk (appendInt y 4 ++ '/' :: (appendInt m 2 ++ '/' :: (appendInt d 2 ++ ['/'])))

/-- The function `makeTimestamp` (lines 49-52):
`time.Now().UnixNano() / int64(time.Millisecond)`, where `now` is the reading returned by
`time.Now()` and `/` is Go's truncating `int64` division. -/
def makeTimestamp (now : Time) : Int :=
  Int.tdiv now.UnixNano 1000000

/-- A byte of file content. -/
abbrev Byte := UInt8

/-- The readable stream returned by `file.Open()`: the successive non-final results of
`Read` (the byte chunks it delivers), and how the stream ends: `none` for `io.EOF`,
`some e` for a read error with text `e`. -/
structure Src where
  reads : List (List Byte)
  final : Option String

/-- All bytes of the stream, in order. -/
def Src.bytes (s : Src) : List Byte := s.reads.flatten

/-- Model of the loop of `io.Copy(w, src)`. `writeErr k` is the outcome of the `k`-th call
of `w.Write` (`none`: the whole chunk is accepted). Each chunk read is written unless it
is empty; the loop stops at the first write error, or when the source ends. The result is
the list of chunks passed to `w.Write` and the error returned (`none` for `nil`). A
`Write` that accepts fewer bytes than it was given reports an error, so the outcome of a
write is its error. -/
def ioCopy (writeErr : Nat → Option String) :
    Nat → List (List Byte) → Option String → List (List Byte) × Option String
  | _, [], final => ([], final)
  | k, c :: cs, final =>
    if c.length > 0 then
      match writeErr k with
      | some e => ([c], some e)
      | none =>
        let r := ioCopy writeErr (k + 1) cs final
        (c :: r.1, r.2)
    else ioCopy writeErr k cs final

/-! ## Collaborators and effects -/

/-- The `*multipart.FileHeader` returned by `c.FormFile`: the original filename and the
outcome of `file.Open()`. -/
structure FileHeader where
  Filename : String
  Open : Except String Src

/-- Everything outside the handler that determines one execution of `upload`. -/
structure World where
  /-- Value of `c.Request().Header.Get("Referer")`; empty when the header is absent. -/
  referer : String
  /-- Outcome of `c.FormFile("file")`. -/
  formFile : Except String FileHeader
  /-- Error of `storage.NewClient(ctx)`, `none` when a client is returned. -/
  newClient : Option String
  /-- Value of `os.Getenv("GOOGLE_UPLOAD_BUCKET")`. -/
  bucketName : String
  /-- Reading of `time.Now()` at line 112. -/
  now1 : Time
  /-- Reading of `time.Now()` inside `makeTimestamp`, called at line 113. -/
  now2 : Time
  /-- Outcome of the `k`-th `Write` on the storage writer. -/
  writeErr : Nat → Option String
  /-- Error of `w.Close()` on the storage writer, `none` when the object is committed. -/
  closeErr : Option String

/-- One effect performed by the handler. -/
inductive Event where
  | headerGet (name : String)
  | formFile (field : String)
  | fileOpen
  | srcClose
  | newClient
  | getenv (name : String)
  | timeNow
  | newWriter (bucket object : String)
  | write (data : List Byte)
  | writerClose
  | json (status : Nat) (body : Body)
  deriving DecidableEq

/-- Lines 112-114: the object name `t + ts + "-" + file.Filename` built from the two clock
readings and the original filename. -/
def objectName (now1 now2 : Time) (filename : String) : String :=
  let t := now1.Format
  let ts := fmtSprintInt (makeTimestamp now2)
  t ++ ts ++ "-" ++ filename

/-- Lines 93-153 of `upload`: the part of the handler that runs after `defer src.Close()`
has been registered. -/
def uploadOpened (w : World) (file : FileHeader) (src : Src) : List Event :=
  match w.newClient with
  | some err =>
    [.newClient, .json 500 (.error { Success := false, Error := true, Message := err })]
  | none =>
    let bucketName := w.bucketName
    let filename := objectName w.now1 w.now2 file.Filename
    let pre : List Event :=
      [.newClient, .getenv "GOOGLE_UPLOAD_BUCKET", .timeNow, .timeNow,
        .newWriter bucketName filename]
    let copied := ioCopy w.writeErr 0 src.reads src.final
    match copied.2 with
    | some err =>
      pre ++ copied.1.map Event.write ++
        [.json 500 (.error { Success := false, Error := true, Message := err })]
    | none =>
      match w.closeErr with
      | some err =>
        pre ++ copied.1.map Event.write ++
          [.writerClose,
            .json 500 (.error { Success := false, Error := true, Message := err })]
      | none =>
        let u := "https://storage.googleapis.com/" ++ bucketName ++ "/" ++ filename
        let s : Success :=
          { Success := true, Error := false, Message := "File uploaded successfully.", Url := u }
        pre ++ copied.1.map Event.write ++ [.writerClose, .json 200 (.success s)]

/-- The handler `upload` (lines 55-154), as the trace of effects of one execution.
`fmt.Sprint` of the single header string is that string. The deferred `src.Close()` runs
when the function returns, after the response of the enclosed part has been written. -/
def upload (w : World) : List Event :=
  let referer := w.referer
  if !stringsContains referer "gingrapp.com" then
    [.headerGet "Referer",
      .json 400 (.error { Success := false, Error := true, Message := "Invalid Request" })]
  else
    match w.formFile with
    | .error err =>
      [.headerGet "Referer", .formFile "file",
        .json 404 (.error { Success := false, Error := true, Message := err })]
    | .ok file =>
      match file.Open with
      | .error err =>
        [.headerGet "Referer", .formFile "file", .fileOpen,
          .json 500 (.error { Success := false, Error := true, Message := err })]
      | .ok src =>
        [.headerGet "Referer", .formFile "file", .fileOpen] ++ uploadOpened w file src ++
          [.srcClose]

/-! ## Observations on traces -/

/-- The JSON responses emitted in a trace, in order. -/
def responses : List Event → List (Nat × Body)
  | [] => []
  | .json status body :: es => (status, body) :: responses es
  | _ :: es => responses es

/-- An effect on the storage writer: opening it, writing to it or closing it. -/
def Event.isStorage : Event → Bool
  | .newWriter _ _ => true
  | .write _ => true
  | .writerClose => true
  | _ => false

/-- The bytes passed to the storage writer up to its first `Close`, in order. -/
def writtenBeforeClose : List Event → List Byte
  | [] => []
  | .write data :: es => data ++ writtenBeforeClose es
  | .writerClose :: _ => []
  | _ :: es => writtenBeforeClose es

/-- Number of times the source stream is closed in a trace. -/
def srcCloses (tr : List Event) : Nat := tr.count Event.srcClose

/-- Every step of the handler succeeds: the referer check, the extraction of the field,
the opening of the file, the construction of the client, the copy and the finalize. -/
def allStepsSucceed (w : World) : Bool :=
  stringsContains w.referer "gingrapp.com" &&
    match w.formFile with
    | .error _ => false
    | .ok file =>
      match file.Open with
      | .error _ => false
      | .ok src =>
        w.newClient.isNone && (ioCopy w.writeErr 0 src.reads src.final).2.isNone &&
          w.closeErr.isNone

/-- The file was opened: the referer check, the extraction of the field and `file.Open`
all succeeded. -/
def fileOpened (w : World) : Bool :=
  stringsContains w.referer "gingrapp.com" &&
    match w.formFile with
    | .error _ => false
    | .ok file =>
      match file.Open with
      | .error _ => false
      | .ok _ => true

/-- The anchored object-name pattern of the specification: four digits, a slash, two
digits, a slash, two digits, a slash, a non-empty run of digits, a dash, and then `f`
verbatim up to the end of the name. -/
def matchesObjectPattern (name f : String) : Bool :=
  match name.data with
  | y1 :: y2 :: y3 :: y4 :: s1 :: m1 :: m2 :: s2 :: d1 :: d2 :: s3 :: rest =>
    let ds := rest.takeWhile Char.isDigit
    y1.isDigit && y2.isDigit && y3.isDigit && y4.isDigit && s1 == '/' &&
      m1.isDigit && m2.isDigit && s2 == '/' &&
      d1.isDigit && d2.isDigit && s3 == '/' &&
      !ds.isEmpty && rest.drop ds.length == '-' :: f.data
  | _ => false

/-- The instant of a clock reading on the wall-clock time line: nanoseconds since the
Unix epoch, as an unbounded integer. -/
def Time.instant (t : Time) : Int :=
  t.sec * 1000000000 + (t.nsec : Int)

/-- The value fits in an `int64`. -/
def inInt64 (x : Int) : Prop := -2 ^ 63 ≤ x ∧ x < 2 ^ 63

instance (x : Int) : Decidable (inInt64 x) := by
  unfold inInt64
  infer_instance

/-- The part of an object name that follows its first `n` slashes. -/
def afterSlashes : Nat → List Char → List Char
  | 0, cs => cs
  | _ + 1, [] => []
  | n + 1, c :: cs => if c = '/' then afterSlashes n cs else afterSlashes (n + 1) cs

/-- The number denoted by a run of decimal digits. -/
def parseDigits (ds : List Char) : Nat :=
  ds.foldl (fun acc c => 10 * acc + (c.toNat - 48)) 0

/-- The numeric prefix of an object name: the signed decimal number that follows the
three slashes of the date path, up to the first character that is not a digit. -/
def numericPrefix (name : String) : Int :=
  let rest := afterSlashes 3 name.data
  if rest.head? = some '-' then -((parseDigits (rest.tail.takeWhile Char.isDigit) : Nat) : Int)
  else ((parseDigits (rest.takeWhile Char.isDigit) : Nat) : Int)

/-! ## Example executions -/

/-- A request without a `Referer` header. -/
def worldNoReferer : World :=
  { referer := "", formFile := .ok ⟨"a.png", .ok ⟨[[1, 2], [], [3]], none⟩⟩,
    newClient := none, bucketName := "bkt", now1 := ⟨1500000000, 0, 0⟩,
    now2 := ⟨1500000000, 5000000, 0⟩, writeErr := fun _ => none, closeErr := none }

/-- A request from an accepted referer that uploads the three bytes 1, 2, 3 as `a.png`;
every collaborator succeeds. -/
def worldOk : World :=
  { worldNoReferer with referer := "https://app.gingrapp.com/page" }

/-- An accepted referer, but the field `file` is missing. -/
def worldNoFile : World :=
  { worldOk with formFile := .error "http: no such file" }

/-- An accepted referer, and `file.Open` fails. -/
def worldOpenFails : World :=
  { worldOk with formFile := .ok ⟨"a.png", .error "open /tmp/multipart-1: permission denied"⟩ }

/-- The construction of the storage client fails. -/
def worldClientFails : World :=
  { worldOk with newClient := some "dialing: no credentials" }

/-- The second write on the storage writer fails. -/
def worldCopyFails : World :=
  { worldOk with writeErr := fun k => if k = 1 then some "pipe closed" else none }

/-- The copy succeeds and the finalize fails. -/
def worldCloseFails : World :=
  { worldOk with closeErr := some "googleapi: Error 403: Forbidden" }

/-- A clock reading one second before the Unix epoch, in UTC. -/
def clockBeforeEpoch : Time := ⟨-1, 0, 0⟩

/-- A clock reading in the year 10158, in UTC; its `UnixNano` wraps around to a
non-negative `int64`. -/
def clockYear10158 : Time := ⟨258402300800, 0, 0⟩

/-- The clock reading 2017-07-14 02:40:00 UTC. -/
def clock2017 : Time := ⟨1500000000, 0, 0⟩

/-- The same instant as `clock2017`, 5.25 milliseconds later. -/
def clock2017a : Time := ⟨1500000000, 5250000, 0⟩

/-- The same instant as `clock2017`, 5.75 milliseconds later. -/
def clock2017b : Time := ⟨1500000000, 5750000, 0⟩

/-! ## Lemmas on traces -/

theorem responses_append (xs ys : List Event) :
    responses (xs ++ ys) = responses xs ++ responses ys := by
  induction xs with
  | nil => rfl
  | cons x xs ih => cases x <;> simp [responses, ih]

theorem responses_map_write (cs : List (List Byte)) :
    responses (cs.map Event.write) = [] := by
  induction cs with
  | nil => rfl
  | cons c cs ih => simpa [responses] using ih

theorem writtenBeforeClose_map_write (cs : List (List Byte)) (rest : List Event) :
    writtenBeforeClose (cs.map Event.write ++ rest) = cs.flatten ++ writtenBeforeClose rest := by
  induction cs with
  | nil => simp
  | cons c cs ih => simp [writtenBeforeClose, ih]

/-- A copy that returns no error has passed every byte of the source to the writer, in
order. -/
theorem ioCopy_ok_flatten (writeErr : Nat → Option String) (final : Option String) :
    ∀ (reads : List (List Byte)) (k : Nat),
      (ioCopy writeErr k reads final).2 = none →
        (ioCopy writeErr k reads final).1.flatten = reads.flatten := by
  intro reads
  induction reads with
  | nil => intro k _; simp [ioCopy]
  | cons c cs ih =>
    intro k h
    unfold ioCopy at h ⊢
    by_cases hc : c.length > 0
    · simp only [hc, if_true] at h ⊢
      cases hw : writeErr k with
      | some e => simp [hw] at h
      | none =>
        simp only [hw] at h ⊢
        simp [ih (k + 1) h]
    · simp only [hc, if_false] at h ⊢
      have hnil : c = [] := by
        cases c with
        | nil => rfl
        | cons a t => simp at hc
      simp [ih k h, hnil]

/-! ## The referer gate and the extraction of the field -/

/-- C1: for every request whose Referer value does not contain `gingrapp.com`, whatever
the rest of the request and the collaborators are, the handler reads the header and
answers status 400 with the error body whose message is `Invalid Request`; that is its
whole trace, so the only response is that one and there is no form parsing, no client
construction and no effect on the storage writer. -/
theorem upload_invalid_referer (w : World)
    (h : stringsContains w.referer "gingrapp.com" = false) :
    upload w =
        [.headerGet "Referer",
          .json 400 (.error { Success := false, Error := true, Message := "Invalid Request" })] ∧
      responses (upload w) =
        [(400, .error { Success := false, Error := true, Message := "Invalid Request" })] ∧
      ∀ e ∈ upload w, (∀ f, e ≠ .formFile f) ∧ e ≠ .newClient ∧ e.isStorage = false := by
  have htr : upload w =
      [.headerGet "Referer",
        .json 400 (.error { Success := false, Error := true, Message := "Invalid Request" })] := by
    simp [upload, h]
  refine ⟨htr, ?_, ?_⟩
  · rw [htr]; rfl
  · intro e he
    rw [htr] at he
    simp only [List.mem_cons, List.mem_singleton, List.not_mem_nil, or_false] at he
    rcases he with rfl | rfl <;> simp [Event.isStorage]

theorem upload_invalid_referer_witness :
    stringsContains worldNoReferer.referer "gingrapp.com" = false ∧
      responses (upload worldNoReferer) =
        [(400, .error { Success := false, Error := true, Message := "Invalid Request" })] :=
  ⟨by decide, (upload_invalid_referer worldNoReferer (by decide)).2.1⟩

/-- C2: for every request whose Referer contains `gingrapp.com` and for which extracting
the field `file` fails, the handler answers status 404 with an error body (success false,
error true) whose message is non-empty, and nothing is done on the storage writer. The
message is the text `err` of the extraction error; the errors that `c.FormFile` returns
(those of `net/http` and `mime/multipart`) all carry a non-empty text, which is the
hypothesis `hne`. -/
theorem upload_form_error (w : World) (err : String)
    (href : stringsContains w.referer "gingrapp.com" = true)
    (hform : w.formFile = .error err) (hne : err ≠ "") :
    responses (upload w) =
        [(404, .error { Success := false, Error := true, Message := err })] ∧
      (∀ st b, (st, b) ∈ responses (upload w) →
        st = 404 ∧ b.successFlag = false ∧ b.errorFlag = true ∧ b.message ≠ "") ∧
      ∀ e ∈ upload w, e.isStorage = false := by
  have htr : upload w =
      [.headerGet "Referer", .formFile "file",
        .json 404 (.error { Success := false, Error := true, Message := err })] := by
    simp [upload, href, hform]
  refine ⟨by rw [htr]; rfl, ?_, ?_⟩
  · intro st b hmem
    rw [htr] at hmem
    simp only [responses, List.mem_singleton, Prod.mk.injEq] at hmem
    rw [hmem.1, hmem.2]
    exact ⟨rfl, rfl, rfl, hne⟩
  · intro e he
    rw [htr] at he
    simp only [List.mem_cons, List.mem_singleton, List.not_mem_nil, or_false] at he
    rcases he with rfl | rfl | rfl <;> rfl

theorem upload_form_error_witness :
    stringsContains worldNoFile.referer "gingrapp.com" = true ∧
      worldNoFile.formFile = .error "http: no such file" ∧
      responses (upload worldNoFile) =
        [(404, .error { Success := false, Error := true, Message := "http: no such file" })] ∧
      ∀ e ∈ upload worldNoFile, e.isStorage = false :=
  have h := upload_form_error worldNoFile "http: no such file" (by decide) rfl (by decide)
  ⟨by decide, rfl, h.1, h.2.2⟩

/-! ## After the file is opened -/

theorem upload_of_opened (w : World) (file : FileHeader) (src : Src)
    (href : stringsContains w.referer "gingrapp.com" = true)
    (hform : w.formFile = .ok file) (hopen : file.Open = .ok src) :
    upload w =
      [.headerGet "Referer", .formFile "file", .fileOpen] ++ uploadOpened w file src ++
        [.srcClose] := by
  simp [upload, href, hform, hopen]

theorem uploadOpened_of_success (w : World) (file : FileHeader) (src : Src)
    (hclient : w.newClient = none)
    (hcopy : (ioCopy w.writeErr 0 src.reads src.final).2 = none)
    (hclose : w.closeErr = none) :
    uploadOpened w file src =
      [.newClient, .getenv "GOOGLE_UPLOAD_BUCKET", .timeNow, .timeNow,
          .newWriter w.bucketName (objectName w.now1 w.now2 file.Filename)] ++
        (ioCopy w.writeErr 0 src.reads src.final).1.map Event.write ++
        [.writerClose,
          .json 200 (.success { Success := true, Error := false,
                                Message := "File uploaded successfully.",
                                Url := "https://storage.googleapis.com/" ++ w.bucketName ++ "/" ++
                                  objectName w.now1 w.now2 file.Filename })] := by
  simp [uploadOpened, hclient, hcopy, hclose]

theorem uploadOpened_of_close_error (w : World) (file : FileHeader) (src : Src) (err : String)
    (hclient : w.newClient = none)
    (hcopy : (ioCopy w.writeErr 0 src.reads src.final).2 = none)
    (hclose : w.closeErr = some err) :
    uploadOpened w file src =
      [.newClient, .getenv "GOOGLE_UPLOAD_BUCKET", .timeNow, .timeNow,
          .newWriter w.bucketName (objectName w.now1 w.now2 file.Filename)] ++
        (ioCopy w.writeErr 0 src.reads src.final).1.map Event.write ++
        [.writerClose,
          .json 500 (.error { Success := false, Error := true, Message := err })] := by
  simp [uploadOpened, hclient, hcopy, hclose]

theorem uploadOpened_of_copy_error (w : World) (file : FileHeader) (src : Src) (err : String)
    (hclient : w.newClient = none)
    (hcopy : (ioCopy w.writeErr 0 src.reads src.final).2 = some err) :
    uploadOpened w file src =
      [.newClient, .getenv "GOOGLE_UPLOAD_BUCKET", .timeNow, .timeNow,
          .newWriter w.bucketName (objectName w.now1 w.now2 file.Filename)] ++
        (ioCopy w.writeErr 0 src.reads src.final).1.map Event.write ++
        [.json 500 (.error { Success := false, Error := true, Message := err })] := by
  simp [uploadOpened, hclient, hcopy]

theorem uploadOpened_of_client_error (w : World) (file : FileHeader) (src : Src) (err : String)
    (hclient : w.newClient = some err) :
    uploadOpened w file src =
      [.newClient, .json 500 (.error { Success := false, Error := true, Message := err })] := by
  simp [uploadOpened, hclient]

/-- C3: for every request with an accepted referer and a file field, when the file open,
the client construction, the copy and the close all succeed, exactly one storage writer
is opened, on the configured bucket and on the object name built at lines 112-114; the
bytes passed to that writer before it is closed are exactly the bytes of the source
stream, in order (hence as many); and the single response is status 200 with
success true, error false, the message `File uploaded successfully.` and the url
`https://storage.googleapis.com/` followed by the bucket, a slash and that same object
name. -/
theorem upload_success (w : World) (file : FileHeader) (src : Src)
    (href : stringsContains w.referer "gingrapp.com" = true)
    (hform : w.formFile = .ok file) (hopen : file.Open = .ok src)
    (hclient : w.newClient = none)
    (hcopy : (ioCopy w.writeErr 0 src.reads src.final).2 = none)
    (hclose : w.closeErr = none) :
    (∀ b o, Event.newWriter b o ∈ upload w ↔
        b = w.bucketName ∧ o = objectName w.now1 w.now2 file.Filename) ∧
      writtenBeforeClose (upload w) = src.bytes ∧
      (writtenBeforeClose (upload w)).length = src.bytes.length ∧
      responses (upload w) =
        [(200, .success { Success := true, Error := false,
                          Message := "File uploaded successfully.",
                          Url := "https://storage.googleapis.com/" ++ w.bucketName ++ "/" ++
                            objectName w.now1 w.now2 file.Filename })] := by
  have htr := upload_of_opened w file src href hform hopen
  rw [uploadOpened_of_success w file src hclient hcopy hclose] at htr
  have hbytes : writtenBeforeClose (upload w) = src.bytes := by
    rw [htr]
    simp only [List.cons_append, List.nil_append, List.append_assoc]
    simp only [writtenBeforeClose.eq_def (Event.headerGet _ :: _),
      writtenBeforeClose.eq_def (Event.formFile _ :: _),
      writtenBeforeClose.eq_def (Event.fileOpen :: _),
      writtenBeforeClose.eq_def (Event.newClient :: _),
      writtenBeforeClose.eq_def (Event.getenv _ :: _),
      writtenBeforeClose.eq_def (Event.timeNow :: _),
      writtenBeforeClose.eq_def (Event.newWriter _ _ :: _)]
    rw [writtenBeforeClose_map_write]
    simp [writtenBeforeClose, Src.bytes, ioCopy_ok_flatten _ _ _ _ hcopy]
  refine ⟨?_, hbytes, by rw [hbytes], ?_⟩
  · intro b o
    rw [htr]
    simp
  · rw [htr]
    simp [responses, responses_append, responses_map_write]

theorem upload_success_witness :
    writtenBeforeClose (upload worldOk) = [1, 2, 3] ∧
      responses (upload worldOk) =
        [(200, .success { Success := true, Error := false,
                          Message := "File uploaded successfully.",
                          Url := "https://storage.googleapis.com/bkt/2017/07/14/1500000000005-a.png" })] :=
  have h := upload_success worldOk ⟨"a.png", .ok ⟨[[1, 2], [], [3]], none⟩⟩
    ⟨[[1, 2], [], [3]], none⟩ (by decide) rfl rfl rfl (by decide) rfl
  ⟨h.2.1, by rw [h.2.2.2]; decide⟩

/-- C4: for every request that reaches the finalize step (accepted referer, file extracted
and opened, client constructed, copy returned without error), if closing the storage
writer returns an error with text `err`, the single response is status 500 with
success false, error true and message `err`; no response of the execution is a success. -/
theorem upload_close_error (w : World) (file : FileHeader) (src : Src) (err : String)
    (href : stringsContains w.referer "gingrapp.com" = true)
    (hform : w.formFile = .ok file) (hopen : file.Open = .ok src)
    (hclient : w.newClient = none)
    (hcopy : (ioCopy w.writeErr 0 src.reads src.final).2 = none)
    (hclose : w.closeErr = some err) :
    responses (upload w) =
        [(500, .error { Success := false, Error := true, Message := err })] ∧
      ∀ st b, (st, b) ∈ responses (upload w) → st ≠ 200 ∧ b.successFlag = false := by
  have htr := upload_of_opened w file src href hform hopen
  rw [uploadOpened_of_close_error w file src err hclient hcopy hclose] at htr
  have hresp : responses (upload w) =
      [(500, .error { Success := false, Error := true, Message := err })] := by
    rw [htr]
    simp [responses, responses_append, responses_map_write]
  refine ⟨hresp, ?_⟩
  intro st b hmem
  rw [hresp] at hmem
  simp only [List.mem_singleton, Prod.mk.injEq] at hmem
  rw [hmem.1, hmem.2]
  exact ⟨by decide, rfl⟩

theorem upload_close_error_witness :
    worldCloseFails.closeErr = some "googleapi: Error 403: Forbidden" ∧
      responses (upload worldCloseFails) =
        [(500, .error { Success := false, Error := true,
                        Message := "googleapi: Error 403: Forbidden" })] :=
  ⟨rfl, (upload_close_error worldCloseFails ⟨"a.png", .ok ⟨[[1, 2], [], [3]], none⟩⟩
    ⟨[[1, 2], [], [3]], none⟩ "googleapi: Error 403: Forbidden"
    (by decide) rfl rfl rfl (by decide) rfl).1⟩

/-! ## Termination at the first failure, release of the source, shape of the response -/

theorem upload_of_open_error (w : World) (file : FileHeader) (err : String)
    (href : stringsContains w.referer "gingrapp.com" = true)
    (hform : w.formFile = .ok file) (hopen : file.Open = .error err) :
    upload w =
      [.headerGet "Referer", .formFile "file", .fileOpen,
        .json 500 (.error { Success := false, Error := true, Message := err })] := by
  simp [upload, href, hform, hopen]

theorem not_mem_map_write (cs : List (List Byte)) (e : Event) (h : ∀ d, e ≠ .write d) :
    e ∉ cs.map Event.write := by
  intro hmem
  rcases List.mem_map.1 hmem with ⟨d, _, hd⟩
  exact h d hd.symm

/-- C8: with an accepted referer and an extracted file, the handler stops at the first
failing step. If `file.Open` fails with text `err`, the single response is status 500
with message `err`, no client is constructed and no storage writer is opened, written
or closed. If the client construction fails with text `err`, the single response is
status 500 with message `err` and no storage writer is opened, written or closed. If
the copy fails with text `err`, the single response is status 500 with message `err`
and the writer is never closed. -/
theorem upload_stops_at_first_failure (w : World) (file : FileHeader)
    (href : stringsContains w.referer "gingrapp.com" = true)
    (hform : w.formFile = .ok file) :
    (∀ err, file.Open = .error err →
        responses (upload w) =
            [(500, .error { Success := false, Error := true, Message := err })] ∧
          ∀ e ∈ upload w, e ≠ .newClient ∧ e.isStorage = false) ∧
      (∀ src err, file.Open = .ok src → w.newClient = some err →
        responses (upload w) =
            [(500, .error { Success := false, Error := true, Message := err })] ∧
          ∀ e ∈ upload w, e.isStorage = false) ∧
      (∀ src err, file.Open = .ok src → w.newClient = none →
        (ioCopy w.writeErr 0 src.reads src.final).2 = some err →
        responses (upload w) =
            [(500, .error { Success := false, Error := true, Message := err })] ∧
          Event.writerClose ∉ upload w) := by
  refine ⟨?_, ?_, ?_⟩
  · intro err hopen
    have htr := upload_of_open_error w file err href hform hopen
    refine ⟨by rw [htr]; rfl, ?_⟩
    intro e he
    rw [htr] at he
    simp only [List.mem_cons, List.mem_singleton, List.not_mem_nil, or_false] at he
    rcases he with rfl | rfl | rfl | rfl <;> simp [Event.isStorage]
  · intro src err hopen hclient
    have htr := upload_of_opened w file src href hform hopen
    rw [uploadOpened_of_client_error w file src err hclient] at htr
    refine ⟨by rw [htr]; rfl, ?_⟩
    intro e he
    rw [htr] at he
    simp only [List.cons_append, List.nil_append, List.mem_cons, List.mem_singleton,
      List.not_mem_nil, or_false] at he
    rcases he with rfl | rfl | rfl | rfl | rfl | rfl <;> rfl
  · intro src err hopen hclient hcopy
    have htr := upload_of_opened w file src href hform hopen
    rw [uploadOpened_of_copy_error w file src err hclient hcopy] at htr
    refine ⟨?_, ?_⟩
    · rw [htr]
      simp [responses, responses_append, responses_map_write]
    · rw [htr]
      have hw := not_mem_map_write (ioCopy w.writeErr 0 src.reads src.final).1
        Event.writerClose (by intro d; simp)
      simp [hw]

theorem upload_stops_at_first_failure_witness :
    (responses (upload worldOpenFails) =
        [(500, .error { Success := false, Error := true,
                        Message := "open /tmp/multipart-1: permission denied" })] ∧
      ∀ e ∈ upload worldOpenFails, e ≠ .newClient ∧ e.isStorage = false) ∧
    (responses (upload worldClientFails) =
        [(500, .error { Success := false, Error := true,
                        Message := "dialing: no credentials" })] ∧
      ∀ e ∈ upload worldClientFails, e.isStorage = false) ∧
    (responses (upload worldCopyFails) =
        [(500, .error { Success := false, Error := true, Message := "pipe closed" })] ∧
      Event.writerClose ∉ upload worldCopyFails) :=
  ⟨(upload_stops_at_first_failure worldOpenFails
      ⟨"a.png", .error "open /tmp/multipart-1: permission denied"⟩ (by decide) rfl).1
      "open /tmp/multipart-1: permission denied" rfl,
    (upload_stops_at_first_failure worldClientFails
      ⟨"a.png", .ok ⟨[[1, 2], [], [3]], none⟩⟩ (by decide) rfl).2.1
      ⟨[[1, 2], [], [3]], none⟩ "dialing: no credentials" rfl rfl,
    (upload_stops_at_first_failure worldCopyFails
      ⟨"a.png", .ok ⟨[[1, 2], [], [3]], none⟩⟩ (by decide) rfl).2.2
      ⟨[[1, 2], [], [3]], none⟩ "pipe closed" rfl rfl (by decide)⟩

theorem count_srcClose_map_write (cs : List (List Byte)) :
    (cs.map Event.write).count Event.srcClose = 0 := by
  apply List.count_eq_zero.2
  exact not_mem_map_write cs Event.srcClose (by intro d; simp)

theorem uploadOpened_no_srcClose (w : World) (file : FileHeader) (src : Src) :
    (uploadOpened w file src).count Event.srcClose = 0 := by
  unfold uploadOpened
  split
  · simp [List.count_cons]
  · dsimp only
    split
    · simp [List.count_append, count_srcClose_map_write, List.count_cons]
    · split <;> simp [List.count_append, count_srcClose_map_write, List.count_cons]

/-- C9: on every execution in which `file.Open` succeeded (whatever happens afterwards:
client failure, copy failure, finalize failure or success) the source stream is closed
exactly once, as the last effect before `upload` returns; on every execution that
returns before `file.Open` or at a failed `file.Open` the stream is never closed. -/
theorem upload_src_closed_once (w : World) :
    (fileOpened w = true →
        srcCloses (upload w) = 1 ∧ (upload w).getLast? = some Event.srcClose) ∧
      (fileOpened w = false → srcCloses (upload w) = 0) := by
  unfold fileOpened srcCloses
  cases href : stringsContains w.referer "gingrapp.com" with
  | false => simp [upload, href, List.count_cons]
  | true =>
    cases hform : w.formFile with
    | error err => simp [upload, href, hform, List.count_cons]
    | ok file =>
      cases hopen : file.Open with
      | error err => simp [upload, href, hform, hopen, List.count_cons]
      | ok src =>
        rw [upload_of_opened w file src href hform hopen]
        refine ⟨fun _ => ⟨?_, ?_⟩, by simp [hopen]⟩
        · simp [List.count_append, List.count_cons, uploadOpened_no_srcClose]
        · rw [List.getLast?_append]
          rfl

theorem responses_of_invalid_referer (w : World)
    (h : stringsContains w.referer "gingrapp.com" = false) :
    responses (upload w) =
      [(400, .error { Success := false, Error := true, Message := "Invalid Request" })] := by
  simp [upload, h, responses]

/-- C10: for every request and every combination of collaborator outcomes, the handler
emits exactly one JSON response; in it success is the negation of error; the status is
200 exactly when success is true, which is exactly when the referer check, the field
extraction, the file open, the client construction, the copy and the finalize all
succeeded; and every other response has status 400, 404 or 500, success false, error
true and no url member. -/
theorem upload_single_response (w : World) :
    ∃ st b, responses (upload w) = [(st, b)] ∧
      b.successFlag = !b.errorFlag ∧
      (st = 200 ↔ b.successFlag = true) ∧
      (b.successFlag = true ↔ allStepsSucceed w = true) ∧
      (st ≠ 200 →
        (st = 400 ∨ st = 404 ∨ st = 500) ∧ b.successFlag = false ∧ b.errorFlag = true ∧
          b.url = none) := by
  unfold allStepsSucceed
  cases href : stringsContains w.referer "gingrapp.com" with
  | false =>
    refine ⟨400, .error { Success := false, Error := true, Message := "Invalid Request" },
      (responses_of_invalid_referer w href), ?_⟩
    simp [Body.successFlag, Body.errorFlag, Body.url]
  | true =>
    cases hform : w.formFile with
    | error err =>
      refine ⟨404, .error { Success := false, Error := true, Message := err }, ?_, ?_⟩
      · simp [upload, href, hform, responses]
      · simp [Body.successFlag, Body.errorFlag, Body.url]
    | ok file =>
      cases hopen : file.Open with
      | error err =>
        refine ⟨500, .error { Success := false, Error := true, Message := err }, ?_, ?_⟩
        · rw [upload_of_open_error w file err href hform hopen]; rfl
        · simp [Body.successFlag, Body.errorFlag, Body.url, hopen]
      | ok src =>
        have htr := upload_of_opened w file src href hform hopen
        cases hclient : w.newClient with
        | some err =>
          refine ⟨500, .error { Success := false, Error := true, Message := err }, ?_, ?_⟩
          · rw [htr, uploadOpened_of_client_error w file src err hclient]; rfl
          · simp [Body.successFlag, Body.errorFlag, Body.url, hopen]
        | none =>
          cases hcopy : (ioCopy w.writeErr 0 src.reads src.final).2 with
          | some err =>
            refine ⟨500, .error { Success := false, Error := true, Message := err }, ?_, ?_⟩
            · rw [htr, uploadOpened_of_copy_error w file src err hclient hcopy]
              simp [responses, responses_append, responses_map_write]
            · simp [Body.successFlag, Body.errorFlag, Body.url, hopen, hcopy]
          | none =>
            cases hclose : w.closeErr with
            | some err =>
              refine ⟨500, .error { Success := false, Error := true, Message := err }, ?_, ?_⟩
              · rw [htr, uploadOpened_of_close_error w file src err hclient hcopy hclose]
                simp [responses, responses_append, responses_map_write]
              · simp [Body.successFlag, Body.errorFlag, Body.url, hopen, hcopy]
            | none =>
              refine ⟨200, .success { Success := true, Error := false,
                                      Message := "File uploaded successfully.",
                                      Url := "https://storage.googleapis.com/" ++
                                        w.bucketName ++ "/" ++
                                        objectName w.now1 w.now2 file.Filename }, ?_, ?_⟩
              · rw [htr, uploadOpened_of_success w file src hclient hcopy hclose]
                simp [responses, responses_append, responses_map_write]
              · simp [Body.successFlag, Body.errorFlag, hopen, hcopy]

/-! ## The object name: timestamp, calendar path and pattern -/

theorem tdiv_million (x : Int) :
    Int.tdiv x 1000000 = if 0 ≤ x then x / 1000000 else -((-x) / 1000000) := by
  split
  · rename_i h
    exact Int.tdiv_eq_ediv h (by decide)
  · rename_i h
    have h2 : Int.tdiv (-x) 1000000 = (-x) / 1000000 :=
      Int.tdiv_eq_ediv (by omega) (by decide)
    rw [Int.neg_tdiv] at h2
    omega

theorem tdiv_million_mono (a b : Int) (h : a ≤ b) :
    Int.tdiv a 1000000 ≤ Int.tdiv b 1000000 := by
  rw [tdiv_million a, tdiv_million b]
  split <;> split <;> omega

theorem digitChar_isDigit : ∀ m, m < 10 → (Nat.digitChar m).isDigit = true := by
  decide

theorem toDigitsCore_isDigit :
    ∀ (fuel n : Nat) (ds : List Char), (∀ c ∈ ds, c.isDigit = true) →
      ∀ c ∈ Nat.toDigitsCore 10 fuel n ds, c.isDigit = true := by
  intro fuel
  induction fuel with
  | zero => intro n ds h; simpa [Nat.toDigitsCore] using h
  | succ fuel ih =>
    intro n ds h
    have hd : (Nat.digitChar (n % 10)).isDigit = true :=
      digitChar_isDigit _ (Nat.mod_lt _ (by decide))
    have hds : ∀ c ∈ Nat.digitChar (n % 10) :: ds, c.isDigit = true := by
      intro c hc
      rcases List.mem_cons.1 hc with rfl | hc
      · exact hd
      · exact h c hc
    unfold Nat.toDigitsCore
    dsimp only
    split
    · exact hds
    · exact ih _ _ hds

theorem toDigitsCore_length_le :
    ∀ (fuel n : Nat) (ds : List Char) (k : Nat), n < 10 ^ (k + 1) →
      (Nat.toDigitsCore 10 fuel n ds).length ≤ ds.length + (k + 1) := by
  intro fuel
  induction fuel with
  | zero => intro n ds k _; simp [Nat.toDigitsCore]
  | succ fuel ih =>
    intro n ds k hn
    unfold Nat.toDigitsCore
    dsimp only
    split
    · simp
    · rename_i hne
      cases k with
      | zero =>
        exfalso
        apply hne
        simp at hn
        omega
      | succ k =>
        have hlt : n / 10 < 10 ^ (k + 1) := by
          rw [Nat.div_lt_iff_lt_mul (by decide)]
          rw [Nat.pow_succ] at hn
          exact hn
        have := ih (n / 10) (Nat.digitChar (n % 10) :: ds) k hlt
        simp only [List.length_cons] at this
        omega

theorem toDigitsCore_length_pos :
    ∀ (fuel n : Nat) (ds : List Char),
      ds.length + 1 ≤ (Nat.toDigitsCore 10 (fuel + 1) n ds).length := by
  intro fuel
  induction fuel with
  | zero =>
    intro n ds
    unfold Nat.toDigitsCore
    dsimp only
    split <;> simp [Nat.toDigitsCore]
  | succ fuel ih =>
    intro n ds
    unfold Nat.toDigitsCore
    dsimp only
    split
    · simp
    · have := ih (n / 10) (Nat.digitChar (n % 10) :: ds)
      simp only [List.length_cons] at this
      omega

theorem toDigits_isDigit (n : Nat) : ∀ c ∈ Nat.toDigits 10 n, c.isDigit = true :=
  toDigitsCore_isDigit (n + 1) n [] (by simp)

theorem toDigits_ne_nil (n : Nat) : Nat.toDigits 10 n ≠ [] := by
  intro h
  have := toDigitsCore_length_pos n n []
  unfold Nat.toDigits at h
  rw [h] at this
  simp at this

theorem toDigits_length_le (n k : Nat) (h : n < 10 ^ (k + 1)) :
    (Nat.toDigits 10 n).length ≤ k + 1 := by
  have := toDigitsCore_length_le (n + 1) n [] k h
  simpa [Nat.toDigits] using this


theorem civilFromDays_month_day (z : Int) :
    1 ≤ (civilFromDays z).2.1 ∧ (civilFromDays z).2.1 ≤ 12 ∧
      1 ≤ (civilFromDays z).2.2 ∧ (civilFromDays z).2.2 ≤ 31 := by
  unfold civilFromDays
  dsimp only
  split <;> omega


theorem appendInt_digits (x : Int) (k : Nat) (h0 : 0 ≤ x) (hk : x < 10 ^ (k + 1)) :
    (appendInt x (k + 1)).length = k + 1 ∧ ∀ c ∈ appendInt x (k + 1), c.isDigit = true := by
  have hlt : x.natAbs < 10 ^ (k + 1) := by
    have : (x.natAbs : Int) < ((10 ^ (k + 1) : Nat) : Int) := by
      rw [Int.natAbs_of_nonneg h0]
      push_cast
      exact hk
    exact_mod_cast this
  have hlen := toDigits_length_le x.natAbs k hlt
  have hneg : ¬ x < 0 := by omega
  unfold appendInt
  simp only [hneg, if_false]
  refine ⟨?_, ?_⟩
  · simp only [List.length_append, List.length_replicate]
    omega
  · intro c hc
    rcases List.mem_append.1 hc with hc | hc
    · rw [List.eq_of_mem_replicate hc]
      decide
    · exact toDigits_isDigit _ c hc

theorem fmtSprintInt_digits (x : Int) (h0 : 0 ≤ x) :
    (fmtSprintInt x).data ≠ [] ∧ ∀ c ∈ (fmtSprintInt x).data, c.isDigit = true := by
  have hneg : ¬ x < 0 := by omega
  unfold fmtSprintInt
  simp only [hneg, if_false]
  exact ⟨toDigits_ne_nil _, toDigits_isDigit _⟩

theorem list_length_two {l : List Char} (h : l.length = 2) : ∃ a b, l = [a, b] := by
  match l, h with
  | [a, b], _ => exact ⟨a, b, rfl⟩

theorem list_length_four {l : List Char} (h : l.length = 4) : ∃ a b c d, l = [a, b, c, d] := by
  match l, h with
  | [a, b, c, d], _ => exact ⟨a, b, c, d, rfl⟩

theorem takeWhile_digits_dash (ts rest : List Char) (h : ∀ c ∈ ts, c.isDigit = true) :
    (ts ++ '-' :: rest).takeWhile Char.isDigit = ts := by
  induction ts with
  | nil =>
    have : Char.isDigit '-' = false := by decide
    simp [List.takeWhile, this]
  | cons t ts ih =>
    have ht : t.isDigit = true := h t (List.mem_cons_self _ _)
    rw [List.cons_append, List.takeWhile_cons, ht, if_pos rfl,
      ih (fun c hc => h c (List.mem_cons_of_mem _ hc))]

/-- A name assembled from a four-digit year, a two-digit month, a two-digit day and a
non-empty digit run, with the separators of the handler, matches the pattern. -/
theorem matchesObjectPattern_of_parts (y m d ts : List Char) (f : String)
    (hy : y.length = 4) (hyd : ∀ c ∈ y, c.isDigit = true)
    (hm : m.length = 2) (hmd : ∀ c ∈ m, c.isDigit = true)
    (hd : d.length = 2) (hdd : ∀ c ∈ d, c.isDigit = true)
    (hts : ts ≠ []) (htsd : ∀ c ∈ ts, c.isDigit = true) :
    matchesObjectPattern
      (String.mk (y ++ '/' :: (m ++ '/' :: (d ++ ['/']))) ++ String.mk ts ++ "-" ++ f) f = true := by
  obtain ⟨y1, y2, y3, y4, rfl⟩ := list_length_four hy
  obtain ⟨m1, m2, rfl⟩ := list_length_two hm
  obtain ⟨d1, d2, rfl⟩ := list_length_two hd
  have hdash : ("-" : String).data = ['-'] := rfl
  unfold matchesObjectPattern
  simp only [String.data_append, hdash, List.cons_append, List.nil_append, List.append_assoc,
    List.singleton_append]
  rw [takeWhile_digits_dash ts f.data htsd]
  simp only [List.mem_cons, List.mem_singleton, List.not_mem_nil, or_false, forall_eq_or_imp,
    forall_eq] at hyd hmd hdd
  have hne : ts.isEmpty = false := by
    cases ts with
    | nil => exact absurd rfl hts
    | cons a t => rfl
  simp [hyd.1, hyd.2.1, hyd.2.2.1, hyd.2.2.2, hmd.1, hmd.2, hdd.1, hdd.2, hne]

/-- C5 (amended): for every pair of clock readings and every original filename `f`, if
the millisecond timestamp returned by `makeTimestamp` is non-negative and the local
calendar year of the reading formatted at line 112 lies between 0 and 9999, the object
name built by `upload` consists of four digits, a slash, two digits, a slash, two digits,
a slash, one or more digits, a dash, and then `f` verbatim as the suffix. -/
theorem objectName_matches (now1 now2 : Time) (f : String)
    (hts : 0 ≤ makeTimestamp now2)
    (hyear : 0 ≤ now1.Date.1 ∧ now1.Date.1 ≤ 9999) :
    matchesObjectPattern (objectName now1 now2 f) f = true := by
  have hmd := civilFromDays_month_day ((now1.sec + now1.offset) / 86400)
  have hY := appendInt_digits now1.Date.1 3 hyear.1 (by
    have : (10 : Int) ^ (3 + 1) = 10000 := by norm_num
    rw [this]; omega)
  have hM := appendInt_digits now1.Date.2.1 1 (by unfold Time.Date; omega) (by
    have : (10 : Int) ^ (1 + 1) = 100 := by norm_num
    rw [this]; unfold Time.Date; omega)
  have hD := appendInt_digits now1.Date.2.2 1 (by unfold Time.Date; omega) (by
    have : (10 : Int) ^ (1 + 1) = 100 := by norm_num
    rw [this]; unfold Time.Date; omega)
  have hT := fmtSprintInt_digits (makeTimestamp now2) hts
  have key := matchesObjectPattern_of_parts _ _ _ _ f hY.1 hY.2 hM.1 hM.2 hD.1 hD.2 hT.1 hT.2
  exact key


theorem objectName_matches_witness :
    0 ≤ makeTimestamp clock2017a ∧ (0 ≤ clock2017.Date.1 ∧ clock2017.Date.1 ≤ 9999) ∧
      objectName clock2017 clock2017a "a.png" = "2017/07/14/1500000000005-a.png" ∧
      matchesObjectPattern (objectName clock2017 clock2017a "a.png") "a.png" = true :=
  ⟨by decide, by decide, by decide,
    objectName_matches clock2017 clock2017a "a.png" (by decide) (by decide)⟩

/-- C5, as stated, fails. For a clock reading before the Unix epoch the timestamp is
negative and is printed with a sign, so a dash stands where the digit run should start;
for a clock reading after the year 9999 the year is printed with five digits. -/
theorem pattern_fails_counterexample :
    (objectName clockBeforeEpoch clockBeforeEpoch "a.png" = "1969/12/31/-1000-a.png" ∧
      matchesObjectPattern (objectName clockBeforeEpoch clockBeforeEpoch "a.png") "a.png"
        = false) ∧
    (objectName clockYear10158 clockYear10158 "a.png"
        = "10158/06/11/147883768066-a.png" ∧
      matchesObjectPattern (objectName clockYear10158 clockYear10158 "a.png") "a.png"
        = false) := by
  refine ⟨⟨by decide, by decide⟩, ⟨by decide, by decide⟩⟩

theorem appendInt_no_slash (x : Int) (width : Nat) : ∀ c ∈ appendInt x width, c ≠ '/' := by
  have hpad : ∀ c ∈ List.replicate (width - (Nat.toDigits 10 x.natAbs).length) '0' ++
      Nat.toDigits 10 x.natAbs, c ≠ '/' := by
    intro c hc
    rcases List.mem_append.1 hc with hc | hc
    · rw [List.eq_of_mem_replicate hc]
      decide
    · intro h
      have := toDigits_isDigit _ c hc
      rw [h] at this
      exact absurd this (by decide)
  intro c hc
  unfold appendInt at hc
  dsimp only at hc
  split at hc
  · rcases List.mem_cons.1 hc with rfl | hc
    · decide
    · exact hpad c hc
  · exact hpad c hc

theorem afterSlashes_append (n : Nat) (a rest : List Char) (h : ∀ c ∈ a, c ≠ '/') :
    afterSlashes (n + 1) (a ++ '/' :: rest) = afterSlashes n rest := by
  induction a with
  | nil => simp [afterSlashes]
  | cons x xs ih =>
    have hx : x ≠ '/' := h x (List.mem_cons_self _ _)
    rw [List.cons_append, afterSlashes, if_neg hx]
    exact ih (fun c hc => h c (List.mem_cons_of_mem _ hc))

/-- After the three slashes of the date path an object name continues with the printed
timestamp, the dash and the filename. -/
theorem afterSlashes_objectName (now1 now2 : Time) (f : String) :
    afterSlashes 3 (objectName now1 now2 f).data =
      (fmtSprintInt (makeTimestamp now2)).data ++ '-' :: f.data := by
  have hdash : ("-" : String).data = ['-'] := rfl
  unfold objectName Time.Format
  simp only [String.data_append, hdash, List.append_assoc, List.cons_append,
    List.nil_append, List.singleton_append]
  rw [afterSlashes_append 2 _ _ (appendInt_no_slash _ _),
    afterSlashes_append 1 _ _ (appendInt_no_slash _ _),
    afterSlashes_append 0 _ _ (appendInt_no_slash _ _)]
  simp [afterSlashes]

theorem digitChar_value : ∀ m, m < 10 → (Nat.digitChar m).toNat - 48 = m := by
  decide

theorem foldl_toDigitsCore (fuel : Nat) :
    ∀ (n : Nat) (ds : List Char), n < fuel →
      (Nat.toDigitsCore 10 fuel n ds).foldl (fun acc c => 10 * acc + (c.toNat - 48)) 0 =
        ds.foldl (fun acc c => 10 * acc + (c.toNat - 48)) n := by
  induction fuel with
  | zero => intro n ds h; omega
  | succ fuel ih =>
    intro n ds h
    have hd := digitChar_value (n % 10) (Nat.mod_lt _ (by decide))
    unfold Nat.toDigitsCore
    dsimp only
    split
    · rename_i hz
      have hn : n % 10 = n := by omega
      rw [hn] at hd
      simp only [List.foldl_cons, hn, hd]
      simp
    · rename_i hz
      rw [ih (n / 10) _ (by omega)]
      simp only [List.foldl_cons, hd]
      congr 1
      omega

/-- Printing a natural number in decimal and reading the digits back gives the number. -/
theorem parseDigits_toDigits (n : Nat) : parseDigits (Nat.toDigits 10 n) = n := by
  unfold parseDigits Nat.toDigits
  rw [foldl_toDigitsCore (n + 1) n [] (by omega)]
  rfl

theorem head_toDigits_ne_dash (n : Nat) (rest : List Char) :
    (Nat.toDigits 10 n ++ rest).head? ≠ some '-' := by
  cases hds : Nat.toDigits 10 n with
  | nil => exact absurd hds (toDigits_ne_nil n)
  | cons c cs =>
    intro h
    have hc : c.isDigit = true := toDigits_isDigit n c (by rw [hds]; exact List.mem_cons_self _ _)
    simp only [List.cons_append, List.head?_cons, Option.some.injEq] at h
    rw [h] at hc
    exact absurd hc (by decide)

/-- The numeric prefix of the object name built by `upload` is the timestamp returned by
`makeTimestamp`, for every clock reading and every filename. -/
theorem numericPrefix_objectName (now1 now2 : Time) (f : String) :
    numericPrefix (objectName now1 now2 f) = makeTimestamp now2 := by
  unfold numericPrefix
  dsimp only
  rw [afterSlashes_objectName]
  unfold fmtSprintInt
  by_cases hneg : makeTimestamp now2 < 0
  · simp only [hneg, if_true, List.cons_append, List.head?_cons, List.tail_cons]
    rw [takeWhile_digits_dash _ _ (toDigits_isDigit _), parseDigits_toDigits]
    omega
  · simp only [hneg, if_false]
    rw [if_neg (head_toDigits_ne_dash _ _), takeWhile_digits_dash _ _ (toDigits_isDigit _),
      parseDigits_toDigits]
    omega

theorem unixNano_eq_instant (t : Time) (h : inInt64 t.instant) : t.UnixNano = t.instant := by
  unfold inInt64 at h
  unfold Time.UnixNano wrapInt64
  unfold Time.instant at h ⊢
  omega

/-- C6 (amended): the numeric prefix of the object name is the number returned by
`makeTimestamp`, the truncated quotient of the `int64` nanosecond value by 1000000, and
it is monotone in that value: readings with `n1 ≤ n2` as `int64` get prefixes in the same
order. For two clock readings whose nanoseconds since the epoch fit in an `int64`, the
`int64` values are the instants themselves, so uploads issued in non-decreasing
wall-clock order get non-decreasing numeric prefixes. -/
theorem numericPrefix_mono (d1 d2 t1 t2 : Time) (f1 f2 : String)
    (hr1 : inInt64 t1.instant) (hr2 : inInt64 t2.instant)
    (horder : t1.instant ≤ t2.instant) :
    numericPrefix (objectName d1 t1 f1) ≤ numericPrefix (objectName d2 t2 f2) ∧
      numericPrefix (objectName d1 t1 f1) = Int.tdiv t1.instant 1000000 ∧
      numericPrefix (objectName d2 t2 f2) = Int.tdiv t2.instant 1000000 ∧
      ∀ s1 s2 : Time, s1.UnixNano ≤ s2.UnixNano →
        numericPrefix (objectName d1 s1 f1) = Int.tdiv s1.UnixNano 1000000 ∧
          numericPrefix (objectName d2 s2 f2) = Int.tdiv s2.UnixNano 1000000 ∧
          numericPrefix (objectName d1 s1 f1) ≤ numericPrefix (objectName d2 s2 f2) := by
  have h1 := unixNano_eq_instant t1 hr1
  have h2 := unixNano_eq_instant t2 hr2
  have hp1 : numericPrefix (objectName d1 t1 f1) = Int.tdiv t1.instant 1000000 := by
    rw [numericPrefix_objectName, makeTimestamp, h1]
  have hp2 : numericPrefix (objectName d2 t2 f2) = Int.tdiv t2.instant 1000000 := by
    rw [numericPrefix_objectName, makeTimestamp, h2]
  refine ⟨?_, hp1, hp2, ?_⟩
  · rw [hp1, hp2]
    exact tdiv_million_mono _ _ horder
  · intro s1 s2 hs
    refine ⟨by rw [numericPrefix_objectName, makeTimestamp],
      by rw [numericPrefix_objectName, makeTimestamp], ?_⟩
    rw [numericPrefix_objectName, numericPrefix_objectName]
    exact tdiv_million_mono _ _ hs

theorem numericPrefix_mono_witness :
    inInt64 clockBeforeEpoch.instant ∧ inInt64 clock2017a.instant ∧
      clockBeforeEpoch.instant ≤ clock2017a.instant ∧
      numericPrefix (objectName clockBeforeEpoch clockBeforeEpoch "a.png") = -1000 ∧
      numericPrefix (objectName clock2017 clock2017a "a.png") = 1500000000005 ∧
      numericPrefix (objectName clockBeforeEpoch clockBeforeEpoch "a.png") ≤
        numericPrefix (objectName clock2017 clock2017a "a.png") :=
  ⟨by decide, by decide, by decide, by decide, by decide,
    (numericPrefix_mono clockBeforeEpoch clock2017 clockBeforeEpoch clock2017a "a.png" "a.png"
      (by decide) (by decide) (by decide)).1⟩

/-- C6, as stated, fails on wall-clock order: the reading of 2017 precedes the reading of
the year 10158, whose nanosecond value wraps around in `int64`, and the later upload gets
the smaller numeric prefix. -/
theorem wall_clock_order_counterexample :
    clock2017.instant ≤ clockYear10158.instant ∧
      objectName clock2017 clock2017 "a.png" = "2017/07/14/1500000000000-a.png" ∧
      objectName clockYear10158 clockYear10158 "a.png" = "10158/06/11/147883768066-a.png" ∧
      numericPrefix (objectName clock2017 clock2017 "a.png") = 1500000000000 ∧
      numericPrefix (objectName clockYear10158 clockYear10158 "a.png") = 147883768066 ∧
      ¬ (numericPrefix (objectName clock2017 clock2017 "a.png") ≤
          numericPrefix (objectName clockYear10158 clockYear10158 "a.png")) := by
  refine ⟨by decide, by decide, by decide, by decide, by decide, by decide⟩

theorem string_append_left_cancel (p a b : String) : p ++ a = p ++ b ↔ a = b := by
  simp [String.ext_iff]

/-- C7: for two uploads whose clock readings give the same date path and the same
millisecond timestamp, the two object names are distinct if and only if the two original
filenames differ. -/
theorem objectName_distinct_iff (a1 a2 b1 b2 : Time) (f1 f2 : String)
    (hdate : a1.Format = b1.Format) (hts : makeTimestamp a2 = makeTimestamp b2) :
    objectName a1 a2 f1 ≠ objectName b1 b2 f2 ↔ f1 ≠ f2 := by
  unfold objectName
  dsimp only
  rw [hdate, hts, Ne, Ne, string_append_left_cancel]

theorem objectName_distinct_iff_witness :
    clock2017.Format = clock2017a.Format ∧
      makeTimestamp clock2017a = makeTimestamp clock2017b ∧
      objectName clock2017 clock2017a "a.png" ≠ objectName clock2017a clock2017b "b.png" ∧
      objectName clock2017 clock2017a "a.png" = objectName clock2017a clock2017b "a.png" :=
  ⟨by decide, by decide,
    (objectName_distinct_iff clock2017 clock2017a clock2017a clock2017b "a.png" "b.png"
      (by decide) (by decide)).2 (by decide),
    by decide⟩

end Upload
